import Mathlib

/-!
Shallow embedding of the rate-limited, retrying call executor of
`semantic_scholar_search.py`.

Time is modelled with exact rationals (`ℚ`): `time.monotonic()` readings and
durations become `ℚ` values.  The module-level mutable/config state
(`REQUEST_INTERVAL_SECONDS`, `MAX_RETRIES`, `BACKOFF_BASE_SECONDS`,
`BACKOFF_MAX_SECONDS`, `BACKOFF_JITTER_SECONDS`, `_next_request_time`) is a
record `ProcState`; each Python function that touches it becomes an explicit
state-passing function.  The lock-protected critical section of
`_wait_for_request_slot` is a single atomic step of the model.
`MAX_RETRIES = int(os.getenv(...))` may be any integer (the environment can
supply a negative string), so `max_retries : ℤ`.
-/

namespace S2

/-- Module-level state of `semantic_scholar_search.py`: the five
configuration constants read at import time plus the one mutable field
`_next_request_time` (initialised to `0.0`). -/
structure ProcState where
  request_interval : ℚ
  max_retries : ℤ
  backoff_base : ℚ
  backoff_cap : ℚ
  jitter_max : ℚ
  next_request_time : ℚ
  deriving Repr, DecidableEq

/-- The state at import time with the default configuration:
`REQUEST_INTERVAL_SECONDS = 1.0`, `S2_MAX_RETRIES = 5`,
`S2_BACKOFF_BASE_SECONDS = 1.0`, `S2_BACKOFF_MAX_SECONDS = 32.0`,
`S2_BACKOFF_JITTER_SECONDS = 0.25`, and `_next_request_time = 0.0`. -/
def initState : ProcState :=
  { request_interval := 1
    max_retries := 5
    backoff_base := 1
    backoff_cap := 32
    jitter_max := 1/4
    next_request_time := 0 }

/-- `_wait_for_request_slot`, lines 26-38.  Under the lock it reads
`now = time.monotonic()` (here a parameter), computes
`reserved_time = max(now, _next_request_time)`,
`wait_seconds = reserved_time - now`, and sets
`_next_request_time = reserved_time + REQUEST_INTERVAL_SECONDS`; after
releasing the lock it sleeps `wait_seconds` if positive.  The result is
`(wait_seconds, reserved_time, updated state)`; `reserved_time` and
`wait_seconds` are the local variables of the source, exposed so the
schedule can be stated. -/
def wait_for_request_slot (now : ℚ) (s : ProcState) : ℚ × ℚ × ProcState :=
  let reserved_time := max now s.next_request_time
  let wait_seconds := reserved_time - now
  (wait_seconds, reserved_time,
    { s with next_request_time := reserved_time + s.request_interval })

/-- State of the gate after the first `k` calls to `_wait_for_request_slot`,
where call `i` observes monotonic time `nows i`. -/
def gateStateAfter (s : ProcState) (nows : ℕ → ℚ) : ℕ → ProcState
  | 0 => s
  | k + 1 => (wait_for_request_slot (nows k) (gateStateAfter s nows k)).2.2

/-- The reserved instant handed to the `k`-th caller (0-indexed) of
`_wait_for_request_slot`, in lock-acquisition order. -/
def reservedAt (s : ProcState) (nows : ℕ → ℚ) (k : ℕ) : ℚ :=
  (wait_for_request_slot (nows k) (gateStateAfter s nows k)).2.1

/-- The wait computed for the `k`-th caller. -/
def waitAt (s : ProcState) (nows : ℕ → ℚ) (k : ℕ) : ℚ :=
  (wait_for_request_slot (nows k) (gateStateAfter s nows k)).1

lemma gateStateAfter_interval (s : ProcState) (nows : ℕ → ℚ) (k : ℕ) :
    (gateStateAfter s nows k).request_interval = s.request_interval := by
  induction k with
  | zero => rfl
  | succ k ih => simpa [gateStateAfter, wait_for_request_slot] using ih

lemma gateStateAfter_succ_next (s : ProcState) (nows : ℕ → ℚ) (k : ℕ) :
    (gateStateAfter s nows (k + 1)).next_request_time =
      reservedAt s nows k + s.request_interval := by
  simp [gateStateAfter, reservedAt, wait_for_request_slot,
    gateStateAfter_interval]

lemma reservedAt_def (s : ProcState) (nows : ℕ → ℚ) (k : ℕ) :
    reservedAt s nows k =
      max (nows k) (gateStateAfter s nows k).next_request_time := rfl

lemma le_reservedAt_next (s : ProcState) (nows : ℕ → ℚ) (k : ℕ) :
    (gateStateAfter s nows k).next_request_time ≤ reservedAt s nows k :=
  le_max_right _ _

lemma reservedAt_succ_ge (s : ProcState) (nows : ℕ → ℚ) (k : ℕ) :
    reservedAt s nows k + s.request_interval ≤ reservedAt s nows (k + 1) := by
  have h := le_reservedAt_next s nows (k + 1)
  rwa [gateStateAfter_succ_next] at h

lemma reservedAt_ge_start (s : ProcState) (nows : ℕ → ℚ) (T : ℚ)
    (hT : ∀ k, T ≤ nows k) (k : ℕ) :
    T + k * s.request_interval ≤ reservedAt s nows k := by
  induction k with
  | zero =>
    have h0 : T ≤ reservedAt s nows 0 := (hT 0).trans (le_max_left _ _)
    simpa using h0
  | succ k ih =>
    have h := reservedAt_succ_ge s nows k
    have : T + (k + 1 : ℕ) * s.request_interval
        ≤ reservedAt s nows k + s.request_interval := by
      push_cast
      nlinarith [ih]
    exact this.trans h

lemma reservedAt_lt_ge (s : ProcState) (nows : ℕ → ℚ)
    (hivl : 0 ≤ s.request_interval) :
    ∀ j k : ℕ, j < k →
      reservedAt s nows j + s.request_interval ≤ reservedAt s nows k := by
  intro j k
  induction k with
  | zero => omega
  | succ k ih =>
    intro hjk
    rcases Nat.lt_succ_iff_lt_or_eq.mp hjk with h | h
    · exact (ih h).trans (le_trans (le_add_of_nonneg_right hivl)
        (reservedAt_succ_ge s nows k))
    · subst h; exact reservedAt_succ_ge s nows j

/-- C1: for a sequence of calls to `_wait_for_request_slot` whose monotonic
clock readings are all at least `T` (all callers issued at or after time
`T`), the `k`-th reserved slot (0-indexed, so the `K = k+1`-th completed
reservation) is no earlier than `T + k·interval`, and any two distinct
reserved slots are at least one `interval` apart. -/
theorem rate_gate_schedule (s : ProcState) (nows : ℕ → ℚ) (T : ℚ)
    (hT : ∀ k, T ≤ nows k) (hivl : 0 ≤ s.request_interval) :
    (∀ k : ℕ, T + k * s.request_interval ≤ reservedAt s nows k) ∧
    (∀ j k : ℕ, j < k →
      reservedAt s nows j + s.request_interval ≤ reservedAt s nows k) :=
  ⟨reservedAt_ge_start s nows T hT, reservedAt_lt_ge s nows hivl⟩

/-- Witness for `rate_gate_schedule`: three callers all arriving at time 0
against the freshly initialised gate; the third slot is at or after `0 + 2·1`
and slots 0 and 1 are ≥ 1 apart. -/
theorem rate_gate_schedule_witness :
    ((0 : ℚ) + (2 : ℕ) * initState.request_interval
        ≤ reservedAt initState (fun _ => 0) 2) ∧
    (reservedAt initState (fun _ => 0) 0 + initState.request_interval
        ≤ reservedAt initState (fun _ => 0) 1) :=
  have h := rate_gate_schedule initState (fun _ => 0) 0
    (fun _ => le_refl 0) (by norm_num [initState])
  ⟨h.1 2, h.2 0 1 (by norm_num)⟩

/-- C2: each call to `_wait_for_request_slot` sets `_next_request_time` to
`max(now, previous) + interval`, i.e. exactly one interval beyond the
reserved instant; with a nonnegative interval the field never decreases,
neither across one call nor across the lifetime of any call sequence.  (In
the source the read-then-write is a single lock-protected critical section;
here that critical section is one atomic step of the model.) -/
theorem next_request_time_update (now : ℚ) (s : ProcState) :
    ((wait_for_request_slot now s).2.2.next_request_time
        = max now s.next_request_time + s.request_interval) ∧
    ((wait_for_request_slot now s).2.2.next_request_time
        = (wait_for_request_slot now s).2.1 + s.request_interval) ∧
    (0 ≤ s.request_interval →
      s.next_request_time ≤ (wait_for_request_slot now s).2.2.next_request_time) ∧
    (∀ nows : ℕ → ℚ, 0 ≤ s.request_interval → ∀ k : ℕ,
      (gateStateAfter s nows k).next_request_time
        ≤ (gateStateAfter s nows (k + 1)).next_request_time) := by
  refine ⟨rfl, rfl, ?_, ?_⟩
  · intro h
    have := le_max_right now s.next_request_time
    simp only [wait_for_request_slot]
    linarith
  · intro nows h k
    rw [gateStateAfter_succ_next]
    calc (gateStateAfter s nows k).next_request_time
        ≤ reservedAt s nows k := le_reservedAt_next s nows k
      _ ≤ reservedAt s nows k + s.request_interval := le_add_of_nonneg_right h

/-- Witness for `next_request_time_update` at `now = 3` on the initial
state. -/
theorem next_request_time_update_witness :
    initState.next_request_time
      ≤ (wait_for_request_slot 3 initState).2.2.next_request_time :=
  (next_request_time_update 3 initState).2.2.1 (by norm_num [initState])

/-- C10: whenever the monotonic reading `now` is at or past
`_next_request_time`, `_wait_for_request_slot` computes `wait_seconds = 0`
(so `time.sleep` is skipped); in particular any first call at a nonnegative
monotonic time finds the initial `_next_request_time = 0.0` and does not
wait. -/
theorem idle_gate_no_wait (now : ℚ) (s : ProcState)
    (h : s.next_request_time ≤ now) :
    (wait_for_request_slot now s).1 = 0 ∧
    (∀ t : ℚ, 0 ≤ t → (wait_for_request_slot t initState).1 = 0) := by
  constructor
  · simp [wait_for_request_slot, max_eq_left h]
  · intro t ht
    have h0 : initState.next_request_time ≤ t := by
      simpa [initState] using ht
    simp [wait_for_request_slot, max_eq_left h0]

/-- Witness for `idle_gate_no_wait`: a caller at time 5 against the idle
initial gate waits 0 seconds. -/
theorem idle_gate_no_wait_witness :
    (wait_for_request_slot 5 initState).1 = 0 :=
  (idle_gate_no_wait 5 initState (by norm_num [initState])).1

/-! ## Failure classification (`_is_retriable_error`, lines 41-61)

A Python exception is modelled as a dynamic type tag plus its textual
message (`str(error)`), the message being a list of characters.  The tag
records which of the `isinstance` branches of the source the exception
falls into; every other exception class is `other`. -/

/-- The exception classes `_is_retriable_error` tests with `isinstance`,
plus `other` for every remaining exception class. -/
inductive ErrorKind where
  | connectionRefusedError
  | timeoutError
  | internalServerErrorException
  | gatewayTimeoutException
  | other
  deriving Repr, DecidableEq

/-- A raised exception: its class tag and `str(error)`. -/
structure PyError where
  kind : ErrorKind
  message : List Char
  deriving Repr, DecidableEq

/-- The `retriable_tokens` tuple of the source, lines 49-60. -/
def retriable_tokens : List (List Char) :=
  ["429".toList, "too many requests".toList, "timed out".toList,
   "timeout".toList, "connection reset".toList, "connection aborted".toList,
   "temporarily unavailable".toList, "502".toList, "503".toList,
   "504".toList]

/-- `_is_retriable_error`: `True` for the two `isinstance` branches,
otherwise `any(token in message for token in retriable_tokens)` on
`str(error).lower()`.  Python's `token in message` is substring
containment, i.e. `token <:+: message`. -/
def is_retriable_error (e : PyError) : Bool :=
  match e.kind with
  | .connectionRefusedError => true
  | .timeoutError => true
  | .internalServerErrorException => true
  | .gatewayTimeoutException => true
  | .other =>
    let message := e.message.map Char.toLower
    retriable_tokens.any fun token => decide (token <:+: message)

/-- C6: `_is_retriable_error` returns `True` exactly when the exception is a
connection-refused or timeout type, an internal-server-error or
gateway-timeout type, or its lowercased message contains one of the ten
retriable tokens; concretely it accepts messages containing `429`, `503`
and `connection reset` in any case and rejects `invalid argument`. -/
theorem is_retriable_error_spec :
    (∀ e : PyError, is_retriable_error e = true ↔
      (e.kind = .connectionRefusedError ∨ e.kind = .timeoutError ∨
       e.kind = .internalServerErrorException ∨
       e.kind = .gatewayTimeoutException ∨
       ∃ token ∈ retriable_tokens, token <:+: e.message.map Char.toLower)) ∧
    is_retriable_error ⟨.other, "Error 429 Too Many Requests".toList⟩ = true ∧
    is_retriable_error ⟨.other, "HTTP 503 Service Unavailable".toList⟩ = true ∧
    is_retriable_error ⟨.other, "Connection RESET by peer".toList⟩ = true ∧
    is_retriable_error ⟨.other, "invalid argument".toList⟩ = false := by
  refine ⟨?_, by decide, by decide, by decide, by decide⟩
  intro e
  obtain ⟨kind, message⟩ := e
  cases kind <;>
    simp [is_retriable_error, List.any_eq_true, decide_eq_true_iff]

/-! ## Retrying executor (`_call_with_rate_limit_and_backoff`, lines 64-88)

The wrapped `operation` is opaque: attempt `i` either returns a value or
raises an error, modelled as `op i : Except ε α`.  The monotonic clock
reading of the gate acquisition of attempt `i` is `nows i`, and the
`random.uniform(0.0, BACKOFF_JITTER_SECONDS)` draw before retry `i + 1` is
`jit i`.  The Python `for attempt in range(MAX_RETRIES + 1)` loop becomes
structural recursion on the number of remaining iterations
(`fuel = MAX_RETRIES + 1 - attempt`); falling off the end of the loop —
possible only when `range(MAX_RETRIES + 1)` is empty — returns Python's
implicit `None`, modelled as the outcome `retNone`. -/

/-- What `_call_with_rate_limit_and_backoff` does in the end: return the
operation's value, re-raise an error, or fall through the loop and return
`None`. -/
inductive ExecOutcome (ε α : Type) where
  | ok : α → ExecOutcome ε α
  | err : ε → ExecOutcome ε α
  | retNone : ExecOutcome ε α

/-- Observable trace of one executor run: the outcome, the number of
invocations of `operation`, the number of `_wait_for_request_slot` calls,
and the total duration passed to the backoff `time.sleep`. -/
structure ExecTrace (ε α : Type) where
  outcome : ExecOutcome ε α
  attempts : ℕ
  slots : ℕ
  backoff_total : ℚ

/-- Lines 77-79: `delay = min(BACKOFF_MAX_SECONDS, BACKOFF_BASE_SECONDS *
(2 ** attempt)) + jitter` with `jitter = random.uniform(0.0,
BACKOFF_JITTER_SECONDS)` supplied as a parameter. -/
def retry_delay (s : ProcState) (attempt : ℕ) (jitter : ℚ) : ℚ :=
  min s.backoff_cap (s.backoff_base * 2 ^ attempt) + jitter

/-- The body of the `for attempt in range(MAX_RETRIES + 1)` loop, recursing
on the remaining iteration count.  Each iteration acquires a slot, invokes
the operation, and on failure either re-raises (`should_retry` false:
`attempt ≥ MAX_RETRIES` or the error is not retriable) or sleeps the
backoff delay and continues with `attempt + 1`. -/
def exec_loop {ε α : Type} (isR : ε → Bool) (op : ℕ → Except ε α)
    (jit : ℕ → ℚ) (nows : ℕ → ℚ) :
    ℕ → ℕ → ProcState → ExecTrace ε α × ProcState
  | 0, _, s => (⟨.retNone, 0, 0, 0⟩, s)
  | fuel + 1, attempt, s =>
    let s1 := (wait_for_request_slot (nows attempt) s).2.2
    match op attempt with
    | .ok v => (⟨.ok v, 1, 1, 0⟩, s1)
    | .error e =>
      if (attempt : ℤ) < s1.max_retries ∧ isR e = true then
        let r := exec_loop isR op jit nows fuel (attempt + 1) s1
        (⟨r.1.outcome, r.1.attempts + 1, r.1.slots + 1,
          r.1.backoff_total + retry_delay s1 attempt (jit attempt)⟩, r.2)
      else
        (⟨.err e, 1, 1, 0⟩, s1)

/-- `_call_with_rate_limit_and_backoff`: run the loop for
`range(MAX_RETRIES + 1)` iterations starting at `attempt = 0` (an empty
range when `MAX_RETRIES + 1 ≤ 0`). -/
def call_with_rate_limit_and_backoff {ε α : Type} (isR : ε → Bool)
    (op : ℕ → Except ε α) (jit : ℕ → ℚ) (nows : ℕ → ℚ) (s : ProcState) :
    ExecTrace ε α × ProcState :=
  exec_loop isR op jit nows (s.max_retries + 1).toNat 0 s

@[simp] lemma wait_slot_max_retries (now : ℚ) (s : ProcState) :
    (wait_for_request_slot now s).2.2.max_retries = s.max_retries := rfl

@[simp] lemma wait_slot_backoff_base (now : ℚ) (s : ProcState) :
    (wait_for_request_slot now s).2.2.backoff_base = s.backoff_base := rfl

@[simp] lemma wait_slot_backoff_cap (now : ℚ) (s : ProcState) :
    (wait_for_request_slot now s).2.2.backoff_cap = s.backoff_cap := rfl

@[simp] lemma wait_slot_jitter_max (now : ℚ) (s : ProcState) :
    (wait_for_request_slot now s).2.2.jitter_max = s.jitter_max := rfl

@[simp] lemma wait_slot_request_interval (now : ℚ) (s : ProcState) :
    (wait_for_request_slot now s).2.2.request_interval =
      s.request_interval := rfl

/-- C4: an operation that succeeds on its first invocation makes the
executor return its value after exactly one attempt and one gate
acquisition, with zero backoff, whatever the backoff/jitter configuration;
the only state change is the single slot reservation. -/
theorem executor_first_success {ε α : Type} (isR : ε → Bool)
    (op : ℕ → Except ε α) (v : α) (jit nows : ℕ → ℚ) (s : ProcState)
    (hmr : 0 ≤ s.max_retries) (hop : op 0 = .ok v) :
    call_with_rate_limit_and_backoff isR op jit nows s =
      (⟨.ok v, 1, 1, 0⟩, (wait_for_request_slot (nows 0) s).2.2) := by
  obtain ⟨m, hm⟩ : ∃ m, (s.max_retries + 1).toNat = m + 1 :=
    ⟨s.max_retries.toNat, by omega⟩
  rw [call_with_rate_limit_and_backoff, hm]
  simp [exec_loop, hop]

/-- Witness for `executor_first_success`: a constantly succeeding operation
under the default configuration. -/
theorem executor_first_success_witness :
    call_with_rate_limit_and_backoff (fun _ : Unit => true)
        (fun _ => Except.ok (0 : ℕ)) (fun _ => 0) (fun _ => 0) initState =
      (⟨.ok 0, 1, 1, 0⟩, (wait_for_request_slot 0 initState).2.2) :=
  executor_first_success (fun _ : Unit => true) (fun _ => Except.ok 0) 0
    (fun _ => 0) (fun _ => 0) initState (by decide) rfl

/-- C5: an error classified as non-retriable on the first attempt is
re-raised after exactly one attempt and one gate acquisition with zero
backoff; and in any iteration reaching `attempt == MAX_RETRIES`, whatever
error is raised is re-raised immediately regardless of its
classification. -/
theorem executor_fatal_first {ε α : Type} (isR : ε → Bool)
    (op : ℕ → Except ε α) (e : ε) (jit nows : ℕ → ℚ) (s : ProcState)
    (hmr : 0 ≤ s.max_retries) (hop : op 0 = .error e)
    (hfatal : isR e = false) :
    (call_with_rate_limit_and_backoff isR op jit nows s =
      (⟨.err e, 1, 1, 0⟩, (wait_for_request_slot (nows 0) s).2.2)) ∧
    (∀ (fuel a : ℕ) (s' : ProcState) (e' : ε),
      (a : ℤ) = s'.max_retries → op a = .error e' →
      exec_loop isR op jit nows (fuel + 1) a s' =
        (⟨.err e', 1, 1, 0⟩, (wait_for_request_slot (nows a) s').2.2)) := by
  constructor
  · obtain ⟨m, hm⟩ : ∃ m, (s.max_retries + 1).toNat = m + 1 :=
      ⟨s.max_retries.toNat, by omega⟩
    rw [call_with_rate_limit_and_backoff, hm]
    simp [exec_loop, hop, hfatal]
  · intro fuel a s' e' ha hop'
    simp [exec_loop, hop', ← ha]

/-- Witness for `executor_fatal_first`: a constantly fatally-failing
operation under the default configuration. -/
theorem executor_fatal_first_witness :
    call_with_rate_limit_and_backoff (fun _ : Unit => false)
        (fun _ => (Except.error () : Except Unit Unit)) (fun _ => 0)
        (fun _ => 0) initState =
      (⟨.err (), 1, 1, 0⟩, (wait_for_request_slot 0 initState).2.2) :=
  (executor_fatal_first (fun _ : Unit => false)
    (fun _ => (Except.error () : Except Unit Unit)) () (fun _ => 0)
    (fun _ => 0) initState (by decide) rfl rfl).1

/-- C7: the delay slept before retry `i + 1` is exactly
`min(backoff_cap, backoff_base · 2^i)` plus the jitter draw; with jitter in
`[0, jitter_max]` it is at least the capped exponential term and never
exceeds `backoff_cap + jitter_max`, whatever the attempt index. -/
theorem backoff_delay_bounded (s : ProcState) (attempt : ℕ) (j : ℚ)
    (h0 : 0 ≤ j) (hj : j ≤ s.jitter_max) :
    retry_delay s attempt j
        = min s.backoff_cap (s.backoff_base * 2 ^ attempt) + j ∧
    min s.backoff_cap (s.backoff_base * 2 ^ attempt)
        ≤ retry_delay s attempt j ∧
    retry_delay s attempt j ≤ s.backoff_cap + s.jitter_max := by
  refine ⟨rfl, le_add_of_nonneg_right h0, ?_⟩
  have h := min_le_left s.backoff_cap (s.backoff_base * 2 ^ attempt)
  unfold retry_delay
  linarith

/-- Witness for `backoff_delay_bounded`: at attempt index 100 with zero
jitter the delay still respects the cap. -/
theorem backoff_delay_bounded_witness :
    retry_delay initState 100 0
      ≤ initState.backoff_cap + initState.jitter_max :=
  (backoff_delay_bounded initState 100 0 (le_refl 0)
    (by norm_num [initState])).2.2

lemma exec_loop_retry_step {ε α : Type} (isR : ε → Bool)
    (op : ℕ → Except ε α) (jit nows : ℕ → ℚ) (fuel attempt : ℕ)
    (s : ProcState) (e : ε) (hop : op attempt = .error e)
    (hlt : (attempt : ℤ) < s.max_retries) (hr : isR e = true) :
    exec_loop isR op jit nows (fuel + 1) attempt s =
      ((⟨(exec_loop isR op jit nows fuel (attempt + 1)
            (wait_for_request_slot (nows attempt) s).2.2).1.outcome,
         (exec_loop isR op jit nows fuel (attempt + 1)
            (wait_for_request_slot (nows attempt) s).2.2).1.attempts + 1,
         (exec_loop isR op jit nows fuel (attempt + 1)
            (wait_for_request_slot (nows attempt) s).2.2).1.slots + 1,
         (exec_loop isR op jit nows fuel (attempt + 1)
            (wait_for_request_slot (nows attempt) s).2.2).1.backoff_total +
           retry_delay (wait_for_request_slot (nows attempt) s).2.2 attempt
             (jit attempt)⟩ : ExecTrace ε α),
       (exec_loop isR op jit nows fuel (attempt + 1)
          (wait_for_request_slot (nows attempt) s).2.2).2) := by
  simp [exec_loop, hop, hlt, hr]

lemma exec_loop_all_retriable {ε α : Type} (isR : ε → Bool)
    (errs : ℕ → ε) (op : ℕ → Except ε α) (jit nows : ℕ → ℚ)
    (hop : ∀ i, op i = .error (errs i))
    (hretri : ∀ i, isR (errs i) = true)
    (hjit : ∀ i, 0 ≤ jit i) :
    ∀ (fuel attempt : ℕ) (s : ProcState),
      (attempt : ℤ) + fuel = s.max_retries →
      ((exec_loop isR op jit nows (fuel + 1) attempt s).1.outcome
          = .err (errs (attempt + fuel))) ∧
      (exec_loop isR op jit nows (fuel + 1) attempt s).1.attempts
          = fuel + 1 ∧
      (exec_loop isR op jit nows (fuel + 1) attempt s).1.slots = fuel + 1 ∧
      (∑ i in Finset.Ico attempt (attempt + fuel),
          min s.backoff_cap (s.backoff_base * 2 ^ i))
        ≤ (exec_loop isR op jit nows (fuel + 1) attempt s).1.backoff_total := by
  intro fuel
  induction fuel with
  | zero =>
    intro attempt s hmr
    have hnlt : ¬ ((attempt : ℤ) < s.max_retries) := by omega
    simp [exec_loop, hop attempt, hnlt]
  | succ fuel ih =>
    intro attempt s hmr
    have hlt : (attempt : ℤ) < s.max_retries := by push_cast at hmr; omega
    have ihres := ih (attempt + 1) (wait_for_request_slot (nows attempt) s).2.2
      (by simp only [wait_slot_max_retries]; push_cast at hmr ⊢; omega)
    obtain ⟨ho, ha, hs, hb⟩ := ihres
    rw [exec_loop_retry_step isR op jit nows (fuel + 1) attempt s
      (errs attempt) (hop attempt) hlt (hretri attempt)]
    have hidx : attempt + 1 + fuel = attempt + (fuel + 1) := by omega
    rw [hidx] at ho hb
    simp only [wait_slot_backoff_cap, wait_slot_backoff_base] at hb
    refine ⟨ho, by rw [ha], by rw [hs], ?_⟩
    have hdelay : min s.backoff_cap (s.backoff_base * 2 ^ attempt)
        ≤ retry_delay (wait_for_request_slot (nows attempt) s).2.2 attempt
            (jit attempt) := by
      have h0 : (0 : ℚ) ≤ jit attempt := hjit attempt
      simp only [retry_delay, wait_slot_backoff_cap, wait_slot_backoff_base]
      linarith
    calc (∑ i in Finset.Ico attempt (attempt + (fuel + 1)),
            min s.backoff_cap (s.backoff_base * 2 ^ i))
        = min s.backoff_cap (s.backoff_base * 2 ^ attempt) +
            ∑ i in Finset.Ico (attempt + 1) (attempt + (fuel + 1)),
              min s.backoff_cap (s.backoff_base * 2 ^ i) :=
          Finset.sum_eq_sum_Ico_succ_bot (by omega) _
      _ ≤ retry_delay (wait_for_request_slot (nows attempt) s).2.2 attempt
            (jit attempt) +
          (exec_loop isR op jit nows (fuel + 1) (attempt + 1)
            (wait_for_request_slot (nows attempt) s).2.2).1.backoff_total :=
          add_le_add hdelay hb
      _ = (exec_loop isR op jit nows (fuel + 1) (attempt + 1)
            (wait_for_request_slot (nows attempt) s).2.2).1.backoff_total +
          retry_delay (wait_for_request_slot (nows attempt) s).2.2 attempt
            (jit attempt) := by ring

/-- C3: an operation that raises a retriable-classified error on every
invocation drives the executor through exactly `MAX_RETRIES + 1` attempts,
each preceded by one gate acquisition; the error of the last attempt is
re-raised, and the total slept backoff is at least
`∑ i < MAX_RETRIES, min(backoff_cap, backoff_base · 2^i)` because the
jitter draws are nonnegative. -/
theorem executor_exhausts_retries {ε α : Type} (isR : ε → Bool)
    (errs : ℕ → ε) (op : ℕ → Except ε α) (jit nows : ℕ → ℚ)
    (s : ProcState) (n : ℕ) (hmr : s.max_retries = n)
    (hop : ∀ i, op i = .error (errs i))
    (hretri : ∀ i, isR (errs i) = true)
    (hjit : ∀ i, 0 ≤ jit i) :
    ((call_with_rate_limit_and_backoff isR op jit nows s).1.outcome
        = .err (errs n)) ∧
    (call_with_rate_limit_and_backoff isR op jit nows s).1.attempts
        = n + 1 ∧
    (call_with_rate_limit_and_backoff isR op jit nows s).1.slots = n + 1 ∧
    (∑ i in Finset.range n, min s.backoff_cap (s.backoff_base * 2 ^ i))
      ≤ (call_with_rate_limit_and_backoff isR op jit nows s).1.backoff_total
    := by
  have htn : (s.max_retries + 1).toNat = n + 1 := by omega
  have h := exec_loop_all_retriable isR errs op jit nows hop hretri hjit
    n 0 s (by simp [hmr])
  rw [call_with_rate_limit_and_backoff, htn]
  simp only [Nat.zero_add] at h
  rw [Finset.range_eq_Ico]
  exact h

/-- Witness for `executor_exhausts_retries`: a constantly retriably-failing
operation under the default configuration makes 6 attempts. -/
theorem executor_exhausts_retries_witness :
    (call_with_rate_limit_and_backoff (fun _ : Unit => true)
        (fun _ => (Except.error () : Except Unit Unit)) (fun _ => 0)
        (fun _ => 0) initState).1.attempts = 5 + 1 :=
  (executor_exhausts_retries (fun _ : Unit => true) (fun _ => ())
    (fun _ => (Except.error () : Except Unit Unit)) (fun _ => 0)
    (fun _ => 0) initState 5 (by decide) (fun _ => rfl) (fun _ => rfl)
    (fun _ => le_refl 0)).2.1

/-- C9: with a negative `MAX_RETRIES` (e.g. `S2_MAX_RETRIES=-1`),
`range(MAX_RETRIES + 1)` is empty, so the executor returns `None` after
zero attempts, zero gate acquisitions, zero backoff, and an unchanged
schedule state. -/
theorem negative_max_retries_no_attempts {ε α : Type} (isR : ε → Bool)
    (op : ℕ → Except ε α) (jit nows : ℕ → ℚ) (s : ProcState)
    (hmr : s.max_retries < 0) :
    call_with_rate_limit_and_backoff isR op jit nows s =
      (⟨.retNone, 0, 0, 0⟩, s) := by
  have h : (s.max_retries + 1).toNat = 0 := by omega
  rw [call_with_rate_limit_and_backoff, h]
  rfl

lemma exec_loop_writes_only_next {ε α : Type} (isR : ε → Bool)
    (op : ℕ → Except ε α) (jit nows : ℕ → ℚ) :
    ∀ (fuel attempt : ℕ) (s : ProcState),
      (exec_loop isR op jit nows fuel attempt s).2 =
        { s with next_request_time :=
            (exec_loop isR op jit nows fuel attempt s).2.next_request_time }
    := by
  intro fuel
  induction fuel with
  | zero => intro attempt s; rfl
  | succ fuel ih =>
    intro attempt s
    simp only [exec_loop]
    cases hv : op attempt with
    | ok v => rfl
    | error e =>
      simp only []
      split
      · rw [ih (attempt + 1) (wait_for_request_slot (nows attempt) s).2.2]
        simp [wait_for_request_slot]
      · rfl

/-- C8: the configuration read at import time (`REQUEST_INTERVAL_SECONDS`,
`MAX_RETRIES`, `BACKOFF_BASE_SECONDS`, `BACKOFF_MAX_SECONDS`,
`BACKOFF_JITTER_SECONDS`) is never written by the gate or the executor:
after any `_wait_for_request_slot` call and after any
`_call_with_rate_limit_and_backoff` run, the module state differs from the
initial one at most in `_next_request_time`. -/
theorem config_immutable {ε α : Type} (isR : ε → Bool)
    (op : ℕ → Except ε α) (jit nows : ℕ → ℚ) :
    (∀ (now : ℚ) (s : ProcState),
      (wait_for_request_slot now s).2.2 =
        { s with next_request_time :=
            (wait_for_request_slot now s).2.2.next_request_time }) ∧
    (∀ (fuel attempt : ℕ) (s : ProcState),
      (exec_loop isR op jit nows fuel attempt s).2 =
        { s with next_request_time :=
            (exec_loop isR op jit nows fuel attempt s).2.next_request_time })
      ∧
    (∀ s : ProcState,
      (call_with_rate_limit_and_backoff isR op jit nows s).2 =
        { s with next_request_time :=
            (call_with_rate_limit_and_backoff isR op jit nows
              s).2.next_request_time }) :=
  ⟨fun _ _ => rfl, exec_loop_writes_only_next isR op jit nows,
   fun s => exec_loop_writes_only_next isR op jit nows _ 0 s⟩

/-- Witness for `negative_max_retries_no_attempts`: default configuration
with `max_retries` overridden to `-1`. -/
theorem negative_max_retries_no_attempts_witness :
    call_with_rate_limit_and_backoff (fun _ : Unit => true)
        (fun _ => Except.ok ()) (fun _ => 0) (fun _ => 0)
        { initState with max_retries := -1 } =
      (⟨.retNone, 0, 0, 0⟩, { initState with max_retries := -1 }) :=
  negative_max_retries_no_attempts (fun _ : Unit => true)
    (fun _ => Except.ok ()) (fun _ => 0) (fun _ => 0)
    { initState with max_retries := -1 } (by decide)

end S2
